import Mathlib

/-!
Verification of the stories module (`src/unnamed/part_000`, the
`initStoriesApi` module of the manager API): a shallow embedding of its
data model and operations, followed by theorems settling the frozen
claims about it.

Modelling conventions:
* JavaScript values stored in the stories hash are modelled by the
  mutually inductive `JVal`/`JArr`/`JObj` (null, booleans, numbers,
  strings, arrays, insertion-ordered objects).  JavaScript objects keep
  string keys in insertion order, so an object is an ordered list of
  key/value pairs with unique keys.
* The persisted mapping (`storiesHash`) is an insertion-ordered
  association list `List (String × JVal)`.
* The `RegExp` separators (`hierarchyRootSeparator`, `hierarchySeparator`)
  are modelled as single-character literal separators, matching the shape
  of the default separators; `String.prototype.split` on such a separator
  is `jsSplit`.
* Fallible code (property access on `undefined`, i.e. a thrown
  `TypeError`) is modelled with `Option`: `none` means the operation
  throws and nothing after it runs.
* Calls to the external collaborators `navigate` and `store.setState`
  are recorded as an explicit list of `Effect`s.
-/

namespace Storybook

mutual
/-- A JavaScript value as stored in the stories hash. -/
inductive JVal where
  | null
  | bool (b : Bool)
  | num (n : Int)
  | str (s : String)
  | arr (elems : JArr)
  | obj (fields : JObj)
/-- A JavaScript array of `JVal`s. -/
inductive JArr where
  | nil
  | cons (head : JVal) (tail : JArr)
/-- A JavaScript object: insertion-ordered fields with unique keys. -/
inductive JObj where
  | nil
  | cons (key : String) (value : JVal) (rest : JObj)
end

mutual
/-- Structural deep equality on values: models both `===` on primitives and
`lodash.isequal` deep equality, which the `merge` customizer combines. -/
def JVal.beq : JVal → JVal → Bool
  | .null, .null => true
  | .bool a, .bool b => a == b
  | .num a, .num b => a == b
  | .str a, .str b => a == b
  | .arr a, .arr b => JArr.beq a b
  | .obj a, .obj b => JObj.beq a b
  | _, _ => false
/-- Deep equality on arrays. -/
def JArr.beq : JArr → JArr → Bool
  | .nil, .nil => true
  | .cons x xs, .cons y ys => JVal.beq x y && JArr.beq xs ys
  | _, _ => false
/-- Deep equality on objects (field order sensitive, as built here). -/
def JObj.beq : JObj → JObj → Bool
  | .nil, .nil => true
  | .cons k v r, .cons k2 v2 r2 => k == k2 && JVal.beq v v2 && JObj.beq r r2
  | _, _ => false
end

/-- Property read `o[key]` on an object: `none` models `undefined`. -/
def JObj.get? : JObj → String → Option JVal
  | .nil, _ => none
  | .cons k v rest, key => if k == key then some v else JObj.get? rest key

/-- Whether `key in o`. -/
def JObj.hasKey (o : JObj) (k : String) : Bool := (o.get? k).isSome

/-- Concatenation of two field lists. -/
def JObj.append : JObj → JObj → JObj
  | .nil, o => o
  | .cons k v r, o => .cons k v (JObj.append r o)

/-- The fields of the second object whose keys do not occur in `existing`. -/
def JObj.filterNewKeys (existing : JObj) : JObj → JObj
  | .nil => .nil
  | .cons k v r =>
      if existing.hasKey k then JObj.filterNewKeys existing r
      else .cons k v (JObj.filterNewKeys existing r)

/-- Build an object from a list of fields (for writing literals). -/
def JObj.ofList : List (String × JVal) → JObj
  | [] => .nil
  | (k, v) :: rest => .cons k v (JObj.ofList rest)

/-- Build an array from a list of values (for writing literals). -/
def JArr.ofList : List JVal → JArr
  | [] => .nil
  | v :: rest => .cons v (JArr.ofList rest)

/-- The elements of an array as a Lean list (models the spread `[...xs]`). -/
def JArr.toList : JArr → List JVal
  | .nil => []
  | .cons v rest => v :: JArr.toList rest

/-- The result of `xs.find(o => o === v || isEqual(o, v))`: the first
element deeply equal to `v` itself (or `undefined`), which the source then
tests for truthiness. -/
def JArr.findVal (xs : JArr) (v : JVal) : Option JVal :=
  match xs with
  | .nil => none
  | .cons h t => if JVal.beq h v then some h else JArr.findVal t v

/-- The push `xs.push(v)` (pure model: returns the extended array). -/
def JArr.push (xs : JArr) (v : JVal) : JArr :=
  match xs with
  | .nil => .cons v .nil
  | .cons h t => .cons h (JArr.push t v)

/-- JavaScript truthiness of a value. -/
def jsTruthy : JVal → Bool
  | .null => false
  | .bool b => b
  | .num n => !(n == 0)
  | .str s => !(s == "")
  | .arr _ => true
  | .obj _ => true

/-- Whether the value is an array (`Array.isArray`). -/
def JVal.isArr : JVal → Bool
  | .arr _ => true
  | _ => false

/-- A scalar is neither an object nor an array. -/
def JVal.isScalar : JVal → Bool
  | .arr _ => false
  | .obj _ => false
  | _ => true

/-- Property access `v.key`.  On a non-object it yields `undefined`
(`none`); in the source every stories-hash value this is applied to is an
object, so the `TypeError` on `null`/`undefined` receivers never arises
through a value in the hash. -/
def jsGetProp (v : JVal) (k : String) : Option JVal :=
  match v with
  | .obj fs => fs.get? k
  | _ => none

/-- Template-literal stringification `${v}` for the value shapes that
reach `navigate` in this module (ids are strings). -/
def jsToStr : JVal → String
  | .str s => s
  | .null => "null"
  | .bool true => "true"
  | .bool false => "false"
  | .num n => toString n
  | .arr _ => ""
  | .obj _ => "[object Object]"

/-- Stringification `${v}` where `v` may be `undefined`. -/
def jsToStrOpt : Option JVal → String
  | some v => jsToStr v
  | none => "undefined"

/-- Truthiness of an optional string (`undefined` and `""` are falsy). -/
def truthyStr : Option String → Bool
  | some s => !(s == "")
  | none => false

/-- The array branch of the `merge` customizer: for each incoming element
the source `find`s an existing element equal by `===` or deep equality and
pushes the incoming one when `!existing` — that is, when none was found or
the found element is itself falsy (a falsy duplicate such as `0` is
re-pushed) — dedup-checking against the growing array as the source
does. -/
def arrayUnion (xs : JArr) : JArr → JArr
  | .nil => xs
  | .cons y ys =>
      arrayUnion (if (xs.findVal y).any jsTruthy then xs else xs.push y) ys

mutual
/-- The module's `merge(a, b)`: `mergeWith({}, a, b, customizer)` where the
customizer unions two arrays, keeps the existing value when the existing
value is an array and the incoming one is not (logging the mismatch), and
otherwise defers to the lodash default — recursive merge for two objects,
incoming value assigned for everything else. -/
def mergeVals : JVal → JVal → JVal
  | .arr xs, .arr ys => .arr (arrayUnion xs ys)
  | .arr xs, _ => .arr xs
  | .obj fa, .obj fb => .obj (JObj.append (mergeInto fa fb) (JObj.filterNewKeys fa fb))
  | _, b => b
/-- Merge the incoming object's values into the existing fields, key by
key, keeping the existing key order; keys new in the incoming object are
appended afterwards by `mergeVals`. -/
def mergeInto : JObj → JObj → JObj
  | .nil, _ => .nil
  | .cons k v rest, fb =>
      .cons k (match JObj.get? fb k with
               | some bv => mergeVals v bv
               | none => v) (mergeInto rest fb)
end

/-- JavaScript `String.prototype.split` on a single-character separator, over the
character list: every occurrence of the separator ends a segment, and the
list of segments is returned (empty segments included). -/
def splitCharAux (sep : Char) : List Char → List (List Char)
  | [] => [[]]
  | c :: rest =>
      match splitCharAux sep rest with
      | h :: t => if c == sep then [] :: h :: t else (c :: h) :: t
      | [] => [[]]

/-- The split `s.split(sep)` for a single-character separator pattern. -/
def jsSplit (sep : Char) (s : String) : List String :=
  (splitCharAux sep s.data).map (fun cs => String.mk cs)

/-- Result of `splitPath`. -/
structure SplitResult where
  root : Option String
  groups : List String
deriving Repr, DecidableEq

/-- The module's `splitPath(kind, { rootSeparator, groupSeparator })`:
`kind.split(rootSeparator, 2)` keeps at most the first two pieces; when a
truthy remainder exists the first piece is the root and the remainder is
split into groups, otherwise the root is null and the whole kind is split;
empty segments are filtered out. -/
def splitPath (kind : String) (rootSeparator groupSeparator : Char) : SplitResult :=
  match (jsSplit rootSeparator kind).take 2 with
  | [rootPiece, remainder] =>
      if remainder = "" then
        { root := none, groups := (jsSplit groupSeparator kind).filter (fun i => !(i == "")) }
      else
        { root := some rootPiece,
          groups := (jsSplit groupSeparator remainder).filter (fun i => !(i == "")) }
  | _ => { root := none, groups := (jsSplit groupSeparator kind).filter (fun i => !(i == "")) }

/-- Modelled from the spec: the external id-sanitization function
`sanitize` imported from `../lib/id`, which is not under `src/`; per the
spec it produces "a stable, URL-safe, collision-resistant string" over a
restricted charset and is deterministic and idempotent.  Modelled as:
lowercase letters and digits are kept (letters lowercased), every other
character becomes a dash, runs of dashes collapse, and leading/trailing
dashes are trimmed. -/
def sanChar (c : Char) : Char :=
  if c.isAlpha || c.isDigit then c.toLower else '-'

/-- Collapse consecutive dashes to a single dash. -/
def collapseDashes : List Char → List Char
  | [] => []
  | c :: rest =>
      let r := collapseDashes rest
      if c == '-' then
        match r with
        | '-' :: _ => r
        | _ => c :: r
      else c :: r

/-- Drop dashes at both ends. -/
def trimDashes (cs : List Char) : List Char :=
  ((cs.dropWhile (fun c => c == '-')).reverse.dropWhile (fun c => c == '-')).reverse

/-- See `sanChar`: the spec-modelled `sanitize`. -/
def sanitize (s : String) : String :=
  String.mk (trimDashes (collapseDashes (s.data.map sanChar)))

/-- The id synthesis the chain builder delegates to:
`sanitize(parent ? parent + "-" + name : name)`. -/
def idOf (parent : Option String) (name : String) : String :=
  match parent with
  | some p => sanitize (p ++ "-" ++ name)
  | none => sanitize name

/-- A synthesized `Group` node (the source's `Group` interface).  The
source stores `false` for a missing parent (`index > 0 && ...`); both that
`false` and the spec's `null` are modelled as `none`. -/
structure Group where
  id : String
  name : String
  children : List String
  parent : Option String
  depth : Nat
  isComponent : Bool
  isRoot : Bool
deriving Repr, DecidableEq

/-- The indexed `reduce` in `setStories` that maps the extra fields onto
the groups: at running index `idx` the segment becomes a `Group` whose
parent is the previous element's id (threaded through the recursion, as
`soFar[index - 1].id` reads it), whose id is `sanitize` of
`parent ? parent-name : name`, with `depth = idx`,
`isComponent = (idx == total - 1)` and `isRoot = hasRoot && idx == 0`. -/
def buildChainAux (hasRoot : Bool) (total : Nat) :
    Nat → Option String → List String → List Group
  | _, _, [] => []
  | idx, parent, name :: rest =>
      let gid := idOf parent name
      { id := gid, name := name, children := [], parent := parent, depth := idx,
        isComponent := idx == total - 1, isRoot := hasRoot && idx == 0 }
        :: buildChainAux hasRoot total (idx + 1) (some gid) rest

/-- The chain `[].concat(root || []).concat(groups).map(toGroup).reduce(...)`: the
root-first chain of groups for one record.  A falsy root — null, or the
empty string that `splitPath` can return for a path such as `"|B"` — is
dropped by `[].concat(root || [])`, and `isRoot` is computed from
`!!root`, so only a truthy root contributes a segment or sets `isRoot`.
(`toGroup`'s preliminary `toKey` id is overwritten by the sanitized id
inside the reduce, so it is not modelled.) -/
def buildChain (root : Option String) (groups : List String) : List Group :=
  let segments := (if truthyStr root then root.toList else []) ++ groups
  buildChainAux (truthyStr root) segments.length 0 none segments

/-- One record of the incoming batch (the source's `StoryInput`).  The
separators model `parameters.options.hierarchyRootSeparator` and
`parameters.options.hierarchySeparator` (RegExps in the source, modelled
as single-character separators); `parameters` carries the record's
parameters object as stored on the leaf. -/
structure StoryInput where
  id : String
  name : String
  kind : String
  children : Option (List String)
  parameters : JObj
  rootSeparator : Char
  groupSeparator : Char

/-- The persisted mapping: a JavaScript object from id to Group/Leaf. -/
abbrev StoriesHash := List (String × JVal)

/-- The read `hash[k]` (`none` models `undefined`). -/
def objGet (hash : StoriesHash) (k : String) : Option JVal :=
  (hash.find? (fun p => p.1 == k)).map Prod.snd

/-- The write `hash[k] = v`: replaces the value in place if the key exists (keys of
a JavaScript object stay at their first-insertion position), otherwise
appends the new key. -/
def objSet : StoriesHash → String → JVal → StoriesHash
  | [], k, v => [(k, v)]
  | (k', v') :: rest, k, v =>
      if k' == k then (k, v) :: rest else (k', v') :: objSet rest k v

/-- The spread `{...group, ...(child && { children: [child] })}`: the group as a
JavaScript object, in the field order produced by `toGroup` plus the
reduce (`name`, `id`, `parent`, `depth`, `children`, `isComponent`,
`isRoot`), with the `children` field replaced in place by `[child]` when
the child id is truthy.  A missing parent is the source's `false`. -/
def groupJVal (g : Group) (child : Option String) : JVal :=
  .obj (JObj.ofList
    [("name", .str g.name), ("id", .str g.id),
     ("parent", match g.parent with | some p => .str p | none => .bool false),
     ("depth", .num g.depth),
     ("children", .arr (match child with | some c => .cons (.str c) .nil | none => .nil)),
     ("isComponent", .bool g.isComponent), ("isRoot", .bool g.isRoot)])

/-- The spread `{...item, parent}`: the leaf entry stored for a record. -/
def storyJVal (item : StoryInput) (parentId : String) : JVal :=
  .obj (JObj.ofList
    ([("id", .str item.id), ("name", .str item.name), ("kind", .str item.kind)]
      ++ (match item.children with
          | some cs => [("children", .arr (JArr.ofList (cs.map JVal.str)))]
          | none => [])
      ++ [("parameters", .obj item.parameters), ("parent", .str parentId)]))

/-- The `rootAndGroups.forEach((group, index) => ...)` of `setStories`:
for each chain element, `child = paths[index + 1]` and
`acc[id] = merge(acc[id] || {}, {...group, ...(child && {children: [child]})})`. -/
def addGroups : StoriesHash → List Group → List String → Nat → StoriesHash
  | acc, [], _, _ => acc
  | acc, grp :: rest, paths, index =>
      let child : Option String :=
        match paths[index + 1]? with
        | some c => if c = "" then none else some c
        | none => none
      let old : JVal :=
        match objGet acc grp.id with
        | some v => if jsTruthy v then v else .obj .nil
        | none => .obj .nil
      addGroups (objSet acc grp.id (mergeVals old (groupJVal grp child))) rest paths (index + 1)

/-- The body of the `setStories` reduce for one record: split the path,
build the chain, wire the children additions, then store the leaf with
`parent: rootAndGroups[rootAndGroups.length - 1].id` — which on an empty
chain reads `.id` of `undefined` and throws (`none`). -/
def addStory (acc : StoriesHash) (item : StoryInput) : Option StoriesHash :=
  let sp := splitPath item.kind item.rootSeparator item.groupSeparator
  let rootAndGroups := buildChain sp.root sp.groups
  let paths := rootAndGroups.map Group.id ++ [item.id]
  let acc1 := addGroups acc rootAndGroups paths 0
  match rootAndGroups.getLast? with
  | none => none
  | some lastGroup => some (objSet acc1 item.id (storyJVal item lastGroup.id))

/-- The reduce `Object.values(input).reduce(..., {})`: the new mapping built from the
batch alone, starting from a fresh empty hash.  A throw inside the reduce
aborts the whole call (`none`). -/
def buildStoriesHash (input : List StoryInput) : Option StoriesHash :=
  input.foldlM addStory []

/-- The module state as read through `store.getState()`. -/
structure ApiState where
  storiesHash : StoriesHash
  storyId : Option String
  viewMode : Option String

/-- The calls the module makes to its external collaborators. -/
inductive Effect where
  | nav (path : String)
  | set (hash : StoriesHash)

/-- Whether the effect is a `store.setState` write. -/
def Effect.isSet : Effect → Bool
  | .set _ => true
  | .nav _ => false

/-- Truthiness of `hash[k]` (false for a missing key). -/
def truthyLookup (hash : StoriesHash) (k : String) : Bool :=
  (objGet hash k).any jsTruthy

/-- Whether `storiesHash[k].children || Array.isArray(storiesHash[k])` is truthy. -/
def childrenTruthy (v : JVal) : Bool :=
  (jsGetProp v "children").any jsTruthy

/-- The list `Object.keys(storiesHash).filter(k => !(storiesHash[k].children ||
Array.isArray(storiesHash[k])))`: the ordered leaf-id lookup list. -/
def storyLookupList (hash : StoriesHash) : List String :=
  (hash.map Prod.fst).filter
    (fun k => !((objGet hash k).any (fun v => childrenTruthy v || v.isArr)))

/-- Scan for the first index (counting from `n`) satisfying `p`. -/
def jsFindIndexAux {α : Type} (p : α → Bool) : List α → Nat → Int
  | [], _ => -1
  | a :: rest, n => if p a then (n : Int) else jsFindIndexAux p rest (n + 1)

/-- JavaScript `Array.prototype.findIndex`: first index satisfying `p`, or `-1`. -/
def jsFindIndex {α : Type} (l : List α) (p : α → Bool) : Int :=
  jsFindIndexAux p l 0

/-- JavaScript `Array.prototype.indexOf`: first index of `x`, or `-1`. -/
def jsIndexOf (l : List String) (x : String) : Int :=
  jsFindIndex l (fun y => y == x)

/-- The read `l[i]` for a possibly negative/overflowing index (`undefined` outside
the range). -/
def jsIndex {α : Type} (l : List α) (i : Int) : Option α :=
  if i < 0 then none else l[i.toNat]?

/-- The operation `jumpToStory(direction)`: no-op without a truthy current selection
present (truthy) in the hash; otherwise steps to the neighbouring entry of
the leaf lookup list, with no-ops at either boundary, and navigates only
when both the view mode and the resulting id are truthy. -/
def jumpToStory (s : ApiState) (direction : Int) : List Effect :=
  if truthyStr s.storyId = false ∨ truthyLookup s.storiesHash (s.storyId.getD "") = false then
    []
  else
    let sid := s.storyId.getD ""
    let lookupList := storyLookupList s.storiesHash
    let index := jsIndexOf lookupList sid
    if index = (lookupList.length : Int) - 1 ∧ direction > 0 then []
    else if index = 0 ∧ direction < 0 then []
    else
      match jsIndex lookupList (index + direction) with
      | some result =>
          if truthyStr s.viewMode ∧ result ≠ "" then
            [Effect.nav ("/" ++ s.viewMode.getD "" ++ "/" ++ result)]
          else []
      | none => []

/-- The operation `getData(storyId)`: a pure lookup; the second component is the (empty)
list of external calls it makes. -/
def getData (s : ApiState) (storyId : String) : Option JVal × List Effect :=
  (objGet s.storiesHash storyId, [])

/-- The predicate `isStory(obj)`: `!!(story && story.parameters)`. -/
def isStory (data : Option JVal) : Bool :=
  match data with
  | some v => jsTruthy v && (jsGetProp v "parameters").any jsTruthy
  | none => false

/-- The operation `getParameters(storyId, parameterName?)`: null (`some .null`) for
anything that is not a leaf, the single parameter (possibly `undefined`)
when a name is given, the whole parameters object otherwise. -/
def getParameters (s : ApiState) (storyId : String) (parameterName : Option String) :
    Option JVal × List Effect :=
  let data := (getData s storyId).1
  if isStory data then
    match data with
    | some v =>
        (match parameterName with
         | some pn => ((jsGetProp v "parameters").bind (fun pv => jsGetProp pv pn), [])
         | none => (jsGetProp v "parameters", []))
    | none => (some .null, [])
  else (some .null, [])

/-- The reduce `Object.entries(storiesHash).reduce(...)` of `jumpToComponent`: one
child-id list (`[...value.children]`) per entry whose `isComponent` is
truthy.  Spreading a `children` that is not an array throws (`none`);
in every hash this module builds, component entries carry an array. -/
def componentLists (hash : StoriesHash) : Option (List (List JVal)) :=
  hash.foldlM
    (fun acc p =>
      if (jsGetProp p.2 "isComponent").any jsTruthy then
        match jsGetProp p.2 "children" with
        | some (.arr xs) => some (acc ++ [xs.toList])
        | _ => none
      else some acc)
    []

/-- The operation `jumpToComponent(direction)`: no-op without a truthy selection present
in the hash; finds the component child-list containing the selection,
no-ops at either boundary, otherwise reads the first child of the list
offset by `direction` — `lookupList[index + direction]` may be `undefined`,
in which case taking `[0]` of it throws (`none`) — and navigates with the
`"story"` view-mode fallback. -/
def jumpToComponent (s : ApiState) (direction : Int) : Option (List Effect) :=
  if truthyStr s.storyId = false ∨ truthyLookup s.storiesHash (s.storyId.getD "") = false then
    some []
  else
    let sid := s.storyId.getD ""
    match componentLists s.storiesHash with
    | none => none
    | some lookupList =>
        let index := jsFindIndex lookupList (fun l => l.any (fun j => JVal.beq j (.str sid)))
        if index = (lookupList.length : Int) - 1 ∧ direction > 0 then some []
        else if index = 0 ∧ direction < 0 then some []
        else
          match jsIndex lookupList (index + direction) with
          | none => none
          | some lst =>
              let result := jsToStrOpt lst[0]?
              some [Effect.nav
                ("/" ++ (if truthyStr s.viewMode then s.viewMode.getD "" else "story")
                  ++ "/" ++ result)]

/-- The operation `setStories(input)`: builds the new mapping from the batch (a throw
aborts the call), then — when the current selection is not truthy or not a
truthy key of the new mapping — finds the first value without truthy
`children` and navigates to its id provided a view mode is set, and
finally persists the new mapping through `store.setState({ storiesHash })`
(the store shallow-merges the patch, replacing the `storiesHash` key). -/
def setStories (s : ApiState) (input : List StoryInput) : Option (ApiState × List Effect) :=
  match buildStoriesHash input with
  | none => none
  | some storiesHash =>
      let navEffects :=
        if truthyStr s.storyId = false ∨ truthyLookup storiesHash (s.storyId.getD "") = false then
          match (storiesHash.map Prod.snd).find? (fun v => !childrenTruthy v) with
          | some firstLeaf =>
              if truthyStr s.viewMode then
                [Effect.nav ("/" ++ s.viewMode.getD "" ++ "/"
                  ++ jsToStrOpt (jsGetProp firstLeaf "id"))]
              else []
          | none => []
        else []
      some ({ s with storiesHash := storiesHash }, navEffects ++ [Effect.set storiesHash])

/-! Concrete records and states used to instantiate the theorems. -/

/-- A record with path `A/X` under the default separators. -/
def recA : StoryInput :=
  { id := "s1", name := "X", kind := "A/X", children := none,
    parameters := .nil, rootSeparator := '|', groupSeparator := '/' }

/-- A record with path `B/Y` under the default separators. -/
def recB : StoryInput :=
  { id := "s2", name := "Y", kind := "B/Y", children := none,
    parameters := .nil, rootSeparator := '|', groupSeparator := '/' }

/-- A record whose path consists of a single group-separator match, so
that splitting yields a null root and zero groups. -/
def grouplessRec : StoryInput :=
  { id := "s1", name := "S", kind := "/", children := none,
    parameters := .nil, rootSeparator := '|', groupSeparator := '/' }

/-- The `"UI/Button"` leaf record of the registration scenario. -/
def uiButtonRecord : StoryInput :=
  { id := "btn1", name := "Button", kind := "UI/Button", children := none,
    parameters := .cons "options" (.obj .nil) .nil,
    rootSeparator := '|', groupSeparator := '/' }

/-- The `"UI/Input"` leaf record of the registration scenario. -/
def uiInputRecord : StoryInput :=
  { id := "inp1", name := "Input", kind := "UI/Input", children := none,
    parameters := .cons "options" (.obj .nil) .nil,
    rootSeparator := '|', groupSeparator := '/' }

/-- A fresh state: empty mapping, no selection, story view mode. -/
def freshState : ApiState :=
  { storiesHash := [], storyId := none, viewMode := some "story" }

/-- The mapping `setStories` builds from the batch `[recA]`. -/
def hashA : StoriesHash :=
  [("a", .obj (JObj.ofList
      [("name", .str "A"), ("id", .str "a"), ("parent", .bool false), ("depth", .num 0),
       ("children", .arr (JArr.ofList [.str "a-x"])),
       ("isComponent", .bool false), ("isRoot", .bool false)])),
   ("a-x", .obj (JObj.ofList
      [("name", .str "X"), ("id", .str "a-x"), ("parent", .str "a"), ("depth", .num 1),
       ("children", .arr (JArr.ofList [.str "s1"])),
       ("isComponent", .bool true), ("isRoot", .bool false)])),
   ("s1", .obj (JObj.ofList
      [("id", .str "s1"), ("name", .str "X"), ("kind", .str "A/X"),
       ("parameters", .obj .nil), ("parent", .str "a-x")]))]

/-- The leaf entry stored for `recA`. -/
def leafS1 : JVal :=
  .obj (JObj.ofList
    [("id", .str "s1"), ("name", .str "X"), ("kind", .str "A/X"),
     ("parameters", .obj .nil), ("parent", .str "a-x")])

/-- A persisted mapping holding exactly two leaves, and a state selecting
the first of them. -/
def twoLeafState : ApiState :=
  { storiesHash :=
      [("l0", .obj (JObj.ofList [("parameters", .obj .nil)])),
       ("l1", .obj (JObj.ofList [("parameters", .obj .nil)]))],
    storyId := some "l0", viewMode := some "story" }

/-- A mapping with two component groups whose child lists are `["x1"]` and
`["x2"]`, with the selection on `x1`. -/
def twoComponentState : ApiState :=
  { storiesHash :=
      [("comp-a", .obj (JObj.ofList
          [("children", .arr (JArr.ofList [.str "x1"])), ("isComponent", .bool true)])),
       ("comp-b", .obj (JObj.ofList
          [("children", .arr (JArr.ofList [.str "x2"])), ("isComponent", .bool true)])),
       ("x1", .obj (JObj.ofList [("parameters", .obj .nil)])),
       ("x2", .obj (JObj.ofList [("parameters", .obj .nil)]))],
    storyId := some "x1", viewMode := some "story" }

/-- A state whose selection `"a"` is a key of the mapping but occurs in no
component group's child list (it names a non-component group). -/
def groupSelectedState : ApiState :=
  { storiesHash :=
      [("a", .obj (JObj.ofList
          [("children", .arr (JArr.ofList [.str "a-x"])), ("isComponent", .bool false)])),
       ("a-x", .obj (JObj.ofList
          [("children", .arr (JArr.ofList [.str "s1"])), ("isComponent", .bool true)])),
       ("s1", .obj (JObj.ofList [("parameters", .obj .nil)]))],
    storyId := some "a", viewMode := some "story" }

/-- The per-index specification of the synthesized chain: the claim's
seven per-index properties of `buildChain`, over the segments the source
actually concatenates (a falsy root is dropped) and with `isRoot` tied to
`!!root` — the root being truthy (non-null and non-empty) — rather than to
the root merely being non-null. -/
def chainIndexSpec (root : Option String) (groups : List String) (i : Nat) (g : Group) : Prop :=
  (buildChain root groups).length
      = ((if truthyStr root then root.toList else []) ++ groups).length
  ∧ ((if truthyStr root then root.toList else []) ++ groups)[i]? = some g.name
  ∧ g.parent = (if i = 0 then none else ((buildChain root groups)[i - 1]?).map Group.id)
  ∧ g.id = idOf g.parent g.name
  ∧ g.depth = i
  ∧ (g.isComponent = true ↔ i = (buildChain root groups).length - 1)
  ∧ (g.isRoot = true ↔ (truthyStr root = true ∧ i = 0))
  ∧ g.children = []

/-! Helper lemmas. -/

/-- The merged value of a key present in the existing fields is that key's
value merged with the incoming value for the same key (if any). -/
theorem mergeInto_get? (fa fb : JObj) (k : String) (va : JVal)
    (ha : fa.get? k = some va) :
    (mergeInto fa fb).get? k
      = some (match fb.get? k with | some bv => mergeVals va bv | none => va) := by
  cases fa with
  | nil => simp [JObj.get?] at ha
  | cons k' v' rest =>
      by_cases hk : k' = k
      · subst hk
        simp only [JObj.get?, beq_self_eq_true, if_pos, Option.some.injEq] at ha
        subst ha
        simp [mergeInto, JObj.get?]
      · simp only [JObj.get?, beq_iff_eq, hk, if_false] at ha
        simp only [mergeInto, JObj.get?, beq_iff_eq, hk, if_false]
        exact mergeInto_get? rest fb k va ha

/-- Lookup in a concatenation finds a key of the left part there. -/
theorem JObj.get?_append_left (x y : JObj) (k : String) (v : JVal)
    (h : x.get? k = some v) : (JObj.append x y).get? k = some v := by
  cases x with
  | nil => simp [JObj.get?] at h
  | cons k' v' rest =>
      by_cases hk : k' = k
      · subst hk
        simp only [JObj.get?, beq_self_eq_true, if_pos] at h
        simpa [JObj.append, JObj.get?] using h
      · simp only [JObj.get?, beq_iff_eq, hk, if_false] at h
        simp only [JObj.append, JObj.get?, beq_iff_eq, hk, if_false]
        exact JObj.get?_append_left rest y k v h

/-- A scalar existing value is overwritten by the incoming one. -/
theorem mergeVals_scalar_left (va vb : JVal) (h : va.isScalar = true) :
    mergeVals va vb = vb := by
  cases va <;> simp [JVal.isScalar] at h <;> cases vb <;> rfl

/-- Length of the synthesized chain. -/
theorem buildChainAux_length (hr : Bool) (t : Nat) :
    ∀ (segs : List String) (start : Nat) (p : Option String),
      (buildChainAux hr t start p segs).length = segs.length := by
  intro segs
  induction segs with
  | nil => intro _ _; rfl
  | cons a rest ih => intro start p; simp [buildChainAux, ih]

/-- Per-index description of `buildChainAux`, with the running index and
threaded parent generalized. -/
theorem buildChainAux_get? (hr : Bool) (t : Nat) :
    ∀ (segs : List String) (start : Nat) (p : Option String) (i : Nat) (g : Group),
      (buildChainAux hr t start p segs)[i]? = some g →
      segs[i]? = some g.name
      ∧ g.parent = (if i = 0 then p else ((buildChainAux hr t start p segs)[i - 1]?).map Group.id)
      ∧ g.id = idOf g.parent g.name
      ∧ g.depth = start + i
      ∧ g.isComponent = (start + i == t - 1)
      ∧ g.isRoot = (hr && (start + i == 0))
      ∧ g.children = [] := by
  intro segs
  induction segs with
  | nil => intro start p i g h; simp [buildChainAux] at h
  | cons nm rest ih =>
      intro start p i g h
      simp only [buildChainAux] at h
      cases i with
      | zero =>
          simp only [List.getElem?_cons_zero, Option.some.injEq] at h
          subst h
          exact ⟨by simp, by simp, by simp, by simp, by simp, by simp, by simp⟩
      | succ j =>
          simp only [List.getElem?_cons_succ] at h
          obtain ⟨h1, h2, h3, h4, h5, h6, h7⟩ := ih (start + 1) (some (idOf p nm)) j g h
          refine ⟨by simpa using h1, ?_, h3, by omega, ?_, ?_, h7⟩
          · rw [if_neg (Nat.succ_ne_zero j), Nat.succ_sub_one]
            simp only [buildChainAux]
            cases j with
            | zero =>
                rw [if_pos rfl] at h2
                simpa using h2
            | succ m =>
                rw [if_neg (Nat.succ_ne_zero m), Nat.succ_sub_one] at h2
                simpa using h2
          · have heq : start + 1 + j = start + (j + 1) := by omega
            rw [← heq]; exact h5
          · have heq : start + 1 + j = start + (j + 1) := by omega
            rw [← heq]; exact h6

/-- The filtered segments are non-empty iff some segment is non-blank. -/
theorem filter_nonblank_ne_nil_iff (l : List String) :
    l.filter (fun i => !(i == "")) ≠ [] ↔ ∃ x ∈ l, x ≠ "" := by
  constructor
  · intro hne
    rcases List.exists_mem_of_ne_nil _ hne with ⟨x, hx⟩
    have hm := List.mem_filter.mp hx
    exact ⟨x, hm.1, by simpa using hm.2⟩
  · rintro ⟨x, hx, hxe⟩ hnil
    have := List.filter_eq_nil_iff.mp hnil x hx
    simp [hxe] at this

/-- The function `splitPath` either returns a null root with groups filtered from the
split of the whole path, or a non-null root with groups filtered from the
split of a non-empty remainder. -/
theorem splitPath_groups_shape (p : String) (r g : Char) :
    ((splitPath p r g).root = none
        ∧ (splitPath p r g).groups = (jsSplit g p).filter (fun i => !(i == "")))
  ∨ (∃ rem, rem ≠ "" ∧ (splitPath p r g).root ≠ none
        ∧ (splitPath p r g).groups = (jsSplit g rem).filter (fun i => !(i == ""))) := by
  unfold splitPath
  split
  · rename_i rootPiece remainder htk
    by_cases hb : remainder = ""
    · rw [if_pos hb]
      exact Or.inl ⟨rfl, rfl⟩
    · rw [if_neg hb]
      exact Or.inr ⟨remainder, hb, by simp, rfl⟩
  · exact Or.inl ⟨rfl, rfl⟩

/-- The scan `findIndex` locates the `i`-th element of a duplicate-free list. -/
theorem jsFindIndexAux_self (l : List String) (hnd : l.Nodup) :
    ∀ (i : Nat) (hi : i < l.length) (start : Nat),
      jsFindIndexAux (fun y => y == l.get ⟨i, hi⟩) l start = ((start + i : Nat) : Int) := by
  induction l with
  | nil => intro i hi; simp at hi
  | cons a t ih =>
      intro i hi start
      have hcons := List.nodup_cons.mp hnd
      cases i with
      | zero => simp [jsFindIndexAux]
      | succ j =>
          have hj : j < t.length := Nat.succ_lt_succ_iff.mp hi
          have hget : (a :: t).get ⟨j + 1, hi⟩ = t.get ⟨j, hj⟩ := rfl
          rw [hget]
          have hmem : t.get ⟨j, hj⟩ ∈ t := List.get_mem t j hj
          have hne : (a == t.get ⟨j, hj⟩) = false := by
            simp only [beq_eq_false_iff_ne, ne_eq]
            intro heq
            exact hcons.1 (heq ▸ hmem)
          simp only [jsFindIndexAux, hne, Bool.false_eq_true, if_false]
          rw [ih hcons.2 j hj (start + 1)]
          omega

/-- A key occurring among the keys of the hash resolves to some value that
is one of the hash's entries. -/
theorem objGet_of_mem_keys (hash : StoriesHash) (k : String)
    (hk : k ∈ hash.map Prod.fst) :
    ∃ v, objGet hash k = some v ∧ (k, v) ∈ hash := by
  induction hash with
  | nil => simp at hk
  | cons q rest ih =>
      obtain ⟨k', v'⟩ := q
      by_cases hpk : k' = k
      · subst hpk
        refine ⟨v', ?_, List.mem_cons_self _ _⟩
        simp [objGet, List.find?_cons_of_pos]
      · have hk' : k ∈ rest.map Prod.fst := by
          rcases List.mem_map.mp hk with ⟨q2, hq2, hq2e⟩
          rcases List.mem_cons.mp hq2 with hhead | htail
          · exact absurd (by rw [hhead] at hq2e; exact hq2e) hpk
          · exact List.mem_map.mpr ⟨q2, htail, hq2e⟩
        obtain ⟨v, hv, hmem⟩ := ih hk'
        refine ⟨v, ?_, List.mem_cons_of_mem _ hmem⟩
        have hneg : ¬((k', v').1 == k) = true := by simp [hpk]
        rw [objGet, @List.find?_cons_of_neg _ (fun q => q.1 == k) (k', v') rest hneg]
        exact hv

/-- The read `l[(n : Int)]` for an in-range natural index. -/
theorem jsIndex_natCast {α : Type} (l : List α) (n : Nat) (hn : n < l.length) :
    jsIndex l ((n : Nat) : Int) = some (l.get ⟨n, hn⟩) := by
  unfold jsIndex
  rw [if_neg (by omega : ¬((n : Nat) : Int) < 0)]
  have ht : (((n : Nat) : Int)).toNat = n := by omega
  rw [ht, List.getElem?_eq_getElem hn]
  simp [List.get_eq_getElem]

/-! Claim theorems. -/

/-- C1 (counterexample): the persisted mapping does not only grow across
calls.  After `setStories` with the batch `[recA]` the mapping has a Group
at key `"a"` (its `isComponent` field is present), but after a subsequent
`setStories` with the batch `[recB]` the key `"a"` is gone: the second
call rebuilds the mapping from its own batch alone and replaces the
persisted mapping wholesale. -/
theorem setStories_group_lost_counterexample :
    ((setStories freshState [recA]).map
        (fun res => (objGet res.1.storiesHash "a").bind (fun v => jsGetProp v "isComponent"))
      = some (some (JVal.bool false)))
  ∧ (((setStories freshState [recA]).bind (fun res => setStories res.1 [recB])).map
        (fun res => (objGet res.1.storiesHash "a").isSome)
      = some false) := ⟨rfl, rfl⟩

/-- C1 (amended): `setStories` builds the new mapping from the incoming
batch alone, starting from an empty hash, and persists it through
`store.setState`, replacing the previous `storiesHash` wholesale: the
resulting mapping is `buildStoriesHash input` whatever the prior state
held.  Group chains are folded together with `merge` only within one
batch, not with the previously persisted mapping. -/
theorem setStories_mapping_from_batch_only (s : ApiState) (input : List StoryInput)
    (h : StoriesHash) (hb : buildStoriesHash input = some h) :
    (setStories s input).map Prod.fst = some { s with storiesHash := h } := by
  unfold setStories
  rw [hb]
  rfl

/-- Witness for `setStories_mapping_from_batch_only`: an empty batch wipes
a previously non-empty persisted mapping. -/
theorem setStories_mapping_from_batch_only_witness :
    (setStories { storiesHash := [("zzz", JVal.obj .nil)], storyId := none,
                  viewMode := some "story" } []).map Prod.fst
      = some { storiesHash := [], storyId := none, viewMode := some "story" } :=
  setStories_mapping_from_batch_only
    { storiesHash := [("zzz", JVal.obj .nil)], storyId := none, viewMode := some "story" }
    [] [] rfl

/-- C3 (counterexample): for a key present on both sides with scalar
values, `merge` keeps the incoming value, not the existing one:
`merge({x: 1}, {x: 2})` yields `{x: 2}`, and `2 ≠ 1`. -/
theorem merge_scalar_counterexample :
    mergeVals (JVal.obj (.cons "x" (.num 1) .nil)) (JVal.obj (.cons "x" (.num 2) .nil))
      = JVal.obj (.cons "x" (.num 2) .nil)
  ∧ JVal.num 2 ≠ JVal.num 1 := by
  refine ⟨rfl, ?_⟩
  intro h
  injection h with h'
  omega

/-- C3 (amended): for every key present on both sides whose two values are
scalars (neither an object nor an array), the merged result holds the
incoming (right) value at that key: the customizer only special-cases
arrays, so lodash's default assignment lets the incoming side win. -/
theorem merge_scalar_incoming_wins (fa fb : JObj) (k : String) (va vb : JVal)
    (ha : fa.get? k = some va) (hb : fb.get? k = some vb)
    (hsa : va.isScalar = true) (hsb : vb.isScalar = true) :
    jsGetProp (mergeVals (.obj fa) (.obj fb)) k = some vb := by
  have hm : mergeVals (.obj fa) (.obj fb)
      = .obj (JObj.append (mergeInto fa fb) (JObj.filterNewKeys fa fb)) := rfl
  rw [hm]
  show (JObj.append (mergeInto fa fb) (JObj.filterNewKeys fa fb)).get? k = some vb
  have h1 := mergeInto_get? fa fb k va ha
  rw [hb] at h1
  have h2 : (mergeInto fa fb).get? k = some vb := by
    rw [h1]
    exact congrArg some (mergeVals_scalar_left va vb hsa)
  exact JObj.get?_append_left _ _ k vb h2

/-- Witness for `merge_scalar_incoming_wins` at two string scalars. -/
theorem merge_scalar_incoming_wins_witness :
    jsGetProp (mergeVals (JVal.obj (.cons "k" (.str "old") .nil))
                         (JVal.obj (.cons "k" (.str "new") .nil))) "k"
      = some (JVal.str "new") :=
  merge_scalar_incoming_wins _ _ "k" (JVal.str "old") (JVal.str "new") rfl rfl rfl rfl

/-- C4: a record whose path splits into zero groups with a null root (the
path `"/"`, made only of group-separator matches) makes `setStories`
throw: building the leaf reads `.id` of `rootAndGroups[-1]`, which is
`undefined`, so the call aborts (`none`) instead of processing the
record. -/
theorem setStories_throws_on_groupless_path :
    setStories freshState [grouplessRec] = none := rfl

/-- C5 (counterexample): `split` on the non-empty path `"/"` with the
default separators returns an empty `groups` sequence, so `groups` is not
always non-empty for non-empty paths. -/
theorem splitPath_nonempty_counterexample :
    splitPath "/" '|' '/' = { root := none, groups := [] } ∧ "/" ≠ "" :=
  ⟨rfl, by decide⟩

/-- C5 (amended): `split` is total (it is a total function of its three
arguments); every returned group segment is non-empty (empty segments are
discarded); an empty path yields empty `groups`; and in the root-less case
`groups` is non-empty exactly when some group-separator segment of the
path is non-empty — so a non-empty path consisting only of separator
matches yields empty `groups`. -/
theorem splitPath_total_and_groups (p : String) (r g : Char) :
    (∀ x ∈ (splitPath p r g).groups, x ≠ "")
  ∧ ((splitPath p r g).root = none →
      ((splitPath p r g).groups ≠ [] ↔ ∃ x ∈ jsSplit g p, x ≠ ""))
  ∧ (p = "" → (splitPath p r g).groups = []) := by
  have hshape := splitPath_groups_shape p r g
  refine ⟨?_, ?_, ?_⟩
  · intro x hx
    rcases hshape with ⟨_, h2⟩ | ⟨rem, _, _, h2⟩ <;> rw [h2] at hx <;>
      have hm := List.mem_filter.mp hx <;> simpa using hm.2
  · intro hroot
    rcases hshape with ⟨_, h2⟩ | ⟨rem, _, h1, h2⟩
    · rw [h2]; exact filter_nonblank_ne_nil_iff (jsSplit g p)
    · exact absurd hroot h1
  · intro hp
    subst hp
    rfl

/-- Witness for `splitPath_total_and_groups`: at path `"A/B"` with the
default separators the root is null and `groups` is non-empty. -/
theorem splitPath_total_and_groups_witness :
    (splitPath "A/B" '|' '/').groups ≠ [] :=
  ((splitPath_total_and_groups "A/B" '|' '/').2.1 rfl).mpr ⟨"A", by decide, by decide⟩

/-- C6 (counterexample): the split result of kind `"|B"` has the non-null
root `some ""` and the single chain segment `"B"`, yet the synthesized
chain is the lone group for `"B"` with `isRoot = false`: the falsy root is
dropped by `[].concat(root || [])` and `isRoot: !!root && index === 0`
evaluates `!!""` to false, so `isRoot` does not hold at index 0 although
the root is non-null, and the chain has no segment for the root at all. -/
theorem buildChain_empty_root_counterexample :
    splitPath "|B" '|' '/' = { root := some "", groups := ["B"] }
  ∧ buildChain (some "") ["B"]
      = [{ id := "b", name := "B", children := [], parent := none, depth := 0,
           isComponent := true, isRoot := false }]
  ∧ (some "" : Option String).isSome = true
  ∧ false ≠ true := ⟨rfl, rfl, rfl, by decide⟩

/-- C6 (amended): at every index `i` of the synthesized chain — whose
segments are the truthy root (a falsy root, null or the empty string, is
dropped by `[].concat(root || [])`) followed by the groups — the name is
the segment text, the parent is the previous element's id (none at index
0), the id is the delegated id synthesis of (parent, name), the depth is
`i`, `isComponent` holds exactly at the last index, `isRoot` holds exactly
when the root is truthy (non-null and non-empty) and `i = 0`, and
`children` starts empty. -/
theorem buildChain_spec (root : Option String) (groups : List String) (i : Nat) (g : Group)
    (h : (buildChain root groups)[i]? = some g) : chainIndexSpec root groups i g := by
  have hlen : (buildChain root groups).length
      = ((if truthyStr root then root.toList else []) ++ groups).length :=
    buildChainAux_length (truthyStr root)
      ((if truthyStr root then root.toList else []) ++ groups).length
      ((if truthyStr root then root.toList else []) ++ groups) 0 none
  have h' : (buildChainAux (truthyStr root)
      ((if truthyStr root then root.toList else []) ++ groups).length 0 none
      ((if truthyStr root then root.toList else []) ++ groups))[i]? = some g := h
  obtain ⟨h1, h2, h3, h4, h5, h6, h7⟩ :=
    buildChainAux_get? (truthyStr root)
      ((if truthyStr root then root.toList else []) ++ groups).length
      ((if truthyStr root then root.toList else []) ++ groups) 0 none i g h'
  refine ⟨hlen, h1, h2, h3, by simpa using h4, ?_, ?_, h7⟩
  · rw [hlen]
    simp only [Nat.zero_add] at h5
    simp [h5, beq_iff_eq]
  · simp only [Nat.zero_add] at h6
    simp [h6, Bool.and_eq_true, beq_iff_eq]

/-- Witness for `buildChain_spec`: the first element of the chain for the
truthy root `"Atoms"` and groups `["Button"]`. -/
theorem buildChain_spec_witness :
    chainIndexSpec (some "Atoms") ["Button"] 0
      { id := "atoms", name := "Atoms", children := [], parent := none, depth := 0,
        isComponent := false, isRoot := true } :=
  buildChain_spec (some "Atoms") ["Button"] 0 _ rfl

/-- C9 (counterexample): registering paths `"UI/Button"` and `"UI/Input"`
in one batch does not give the Group `"ui"` `isComponent = true`, nor the
leaves `parent = "ui"`: the group `"ui"` has `isComponent = false` and the
`btn1` leaf's parent is the intermediate group `"ui-button"`. -/
theorem uiScenario_counterexample :
    ((buildStoriesHash [uiButtonRecord, uiInputRecord]).bind
        (fun h => (objGet h "ui").bind (fun v => jsGetProp v "isComponent"))
      = some (JVal.bool false))
  ∧ ((buildStoriesHash [uiButtonRecord, uiInputRecord]).bind
        (fun h => (objGet h "btn1").bind (fun v => jsGetProp v "parent"))
      = some (JVal.str "ui-button"))
  ∧ JVal.bool false ≠ JVal.bool true
  ∧ JVal.str "ui-button" ≠ JVal.str "ui" := by
  refine ⟨rfl, rfl, by simp, ?_⟩
  intro h
  injection h with h'
  exact absurd h' (by decide)

/-- C9 (amended): the batch with paths `"UI/Button"` and `"UI/Input"`
under default separators produces a mapping with three Groups — `"ui"`
(two children, `isComponent = false`, `isRoot = false`) and the
per-component groups `"ui-button"` and `"ui-input"` (each
`isComponent = true`) — plus two Leaf entries whose parents are
`"ui-button"` and `"ui-input"` respectively. -/
theorem uiScenario_actual_mapping :
    ((buildStoriesHash [uiButtonRecord, uiInputRecord]).map (fun h => h.map Prod.fst)
      = some ["ui", "ui-button", "btn1", "ui-input", "inp1"])
  ∧ ((buildStoriesHash [uiButtonRecord, uiInputRecord]).bind (fun h => objGet h "ui")
      = some (.obj (JObj.ofList
          [("name", .str "UI"), ("id", .str "ui"), ("parent", .bool false),
           ("depth", .num 0),
           ("children", .arr (JArr.ofList [.str "ui-button", .str "ui-input"])),
           ("isComponent", .bool false), ("isRoot", .bool false)])))
  ∧ ((buildStoriesHash [uiButtonRecord, uiInputRecord]).bind
        (fun h => (objGet h "ui-button").bind (fun v => jsGetProp v "isComponent"))
      = some (.bool true))
  ∧ ((buildStoriesHash [uiButtonRecord, uiInputRecord]).bind
        (fun h => (objGet h "ui-input").bind (fun v => jsGetProp v "isComponent"))
      = some (.bool true))
  ∧ ((buildStoriesHash [uiButtonRecord, uiInputRecord]).bind
        (fun h => (objGet h "btn1").bind (fun v => jsGetProp v "parent"))
      = some (.str "ui-button"))
  ∧ ((buildStoriesHash [uiButtonRecord, uiInputRecord]).bind
        (fun h => (objGet h "inp1").bind (fun v => jsGetProp v "parent"))
      = some (.str "ui-input")) :=
  ⟨rfl, rfl, rfl, rfl, rfl, rfl⟩

/-- The operation `jumpToStory` either does nothing or issues a single navigation. -/
theorem jumpToStory_shape (s : ApiState) (d : Int) :
    jumpToStory s d = [] ∨ ∃ path, jumpToStory s d = [Effect.nav path] := by
  simp only [jumpToStory]
  repeat' split
  all_goals first
    | exact Or.inl rfl
    | exact Or.inr ⟨_, rfl⟩

/-- The operation `jumpToComponent` throws, does nothing, or issues one navigation. -/
theorem jumpToComponent_shape (s : ApiState) (d : Int) :
    jumpToComponent s d = none ∨ jumpToComponent s d = some []
      ∨ ∃ path, jumpToComponent s d = some [Effect.nav path] := by
  simp only [jumpToComponent]
  repeat' split
  all_goals first
    | exact Or.inl rfl
    | exact Or.inr (Or.inl rfl)
    | exact Or.inr (Or.inr ⟨_, rfl⟩)

/-- The operation `getParameters` returns a value and makes no external call. -/
theorem getParameters_shape (s : ApiState) (sid : String) (pn : Option String) :
    ∃ v, getParameters s sid pn = (v, []) := by
  simp only [getParameters]
  repeat' split
  all_goals exact ⟨_, rfl⟩

/-- C10: navigation and lookup never write through `store.setState`: the
effect lists of `jumpToStory` and `jumpToComponent` contain no `set`
effect (they hold at most a `navigate` call), and `getData` and
`getParameters` make no external calls at all, so the store state is
unchanged by all four. -/
theorem navigation_and_lookup_do_not_write (s : ApiState) (d : Int) (sid : String)
    (pn : Option String) :
    ((jumpToStory s d).all (fun e => !e.isSet) = true)
  ∧ (((jumpToComponent s d).getD []).all (fun e => !e.isSet) = true)
  ∧ ((getData s sid).2 = [])
  ∧ ((getParameters s sid pn).2 = []) := by
  refine ⟨?_, ?_, rfl, ?_⟩
  · rcases jumpToStory_shape s d with h | ⟨path, h⟩ <;> rw [h] <;> simp [Effect.isSet]
  · rcases jumpToComponent_shape s d with h | h | ⟨path, h⟩ <;> rw [h] <;>
      simp [Effect.isSet]
  · rcases getParameters_shape s sid pn with ⟨v, h⟩ <;> rw [h]

/-- The operation `jumpToStory` with an unset (or blank) current selection. -/
theorem jumpToStory_noop_unset (s : ApiState) (d : Int)
    (h : truthyStr s.storyId = false) : jumpToStory s d = [] := by
  simp [jumpToStory, h]

/-- The operation `jumpToStory` when the selection is not a truthy key of the mapping. -/
theorem jumpToStory_noop_absent (s : ApiState) (d : Int) (sid : String)
    (hs : s.storyId = some sid) (h : truthyLookup s.storiesHash sid = false) :
    jumpToStory s d = [] := by
  simp [jumpToStory, hs, h]

/-- Stepping: `jumpToStory(+1)` from the `i`-th leaf navigates to the `i+1`-st. -/
theorem jumpToStory_step (s : ApiState) (vm : String) (i : Nat)
    (hvm : s.viewMode = some vm) (hvm2 : vm ≠ "")
    (hnd : (storyLookupList s.storiesHash).Nodup)
    (hkeys : ∀ k ∈ storyLookupList s.storiesHash, k ≠ "")
    (hvals : ∀ q ∈ s.storiesHash, jsTruthy q.2 = true)
    (hi : i + 1 < (storyLookupList s.storiesHash).length)
    (hsid : s.storyId
      = some ((storyLookupList s.storiesHash).get ⟨i, Nat.lt_of_succ_lt hi⟩)) :
    jumpToStory s 1
      = [Effect.nav ("/" ++ vm ++ "/" ++ (storyLookupList s.storiesHash).get ⟨i + 1, hi⟩)] := by
  have hiL : i < (storyLookupList s.storiesHash).length := Nat.lt_of_succ_lt hi
  have hmem : (storyLookupList s.storiesHash).get ⟨i, hiL⟩ ∈ storyLookupList s.storiesHash :=
    List.get_mem _ _ _
  have hkeysmem : (storyLookupList s.storiesHash).get ⟨i, hiL⟩ ∈ s.storiesHash.map Prod.fst :=
    List.mem_of_mem_filter hmem
  obtain ⟨v, hv, hvmem⟩ := objGet_of_mem_keys s.storiesHash _ hkeysmem
  have htl : truthyLookup s.storiesHash ((storyLookupList s.storiesHash).get ⟨i, hiL⟩) = true := by
    rw [truthyLookup, hv]
    simpa using hvals _ hvmem
  have hsne : (storyLookupList s.storiesHash).get ⟨i, hiL⟩ ≠ "" := hkeys _ hmem
  have hsne2 : ¬(storyLookupList s.storiesHash)[i] = "" := by simpa using hsne
  have hts : truthyStr s.storyId = true := by rw [hsid]; simp [truthyStr, hsne2]
  have hgd : s.storyId.getD "" = (storyLookupList s.storiesHash).get ⟨i, hiL⟩ := by
    rw [hsid]; rfl
  have hidx : jsIndexOf (storyLookupList s.storiesHash)
      ((storyLookupList s.storiesHash).get ⟨i, hiL⟩) = ((i : Nat) : Int) := by
    unfold jsIndexOf jsFindIndex
    rw [jsFindIndexAux_self _ hnd i hiL 0]
    omega
  have hjs : jsIndex (storyLookupList s.storiesHash) (((i : Nat) : Int) + 1)
      = some ((storyLookupList s.storiesHash).get ⟨i + 1, hi⟩) := by
    have hcast : ((i : Nat) : Int) + 1 = (((i + 1 : Nat)) : Int) := by omega
    rw [hcast]
    exact jsIndex_natCast _ _ hi
  have hresne : (storyLookupList s.storiesHash).get ⟨i + 1, hi⟩ ≠ "" :=
    hkeys _ (List.get_mem _ _ _)
  simp only [jumpToStory, hts, hgd, htl]
  rw [if_neg (by simp : ¬(true = false ∨ true = false))]
  simp only [hidx, hjs]
  rw [if_neg (by omega :
    ¬(((i : Nat) : Int) = ((storyLookupList s.storiesHash).length : Int) - 1 ∧ (1 : Int) > 0))]
  rw [if_neg (by omega : ¬(((i : Nat) : Int) = 0 ∧ (1 : Int) < 0))]
  simp only [hvm]
  rw [if_pos (show truthyStr (some vm) = true
        ∧ (storyLookupList s.storiesHash).get ⟨i + 1, hi⟩ ≠ ""
      from ⟨by simp [truthyStr, hvm2], hresne⟩)]
  simp

/-- Boundary: `jumpToStory(+1)` at the last leaf is a no-op. -/
theorem jumpToStory_noop_last (s : ApiState) (i : Nat)
    (hnd : (storyLookupList s.storiesHash).Nodup)
    (hkeys : ∀ k ∈ storyLookupList s.storiesHash, k ≠ "")
    (hvals : ∀ q ∈ s.storiesHash, jsTruthy q.2 = true)
    (hi : i < (storyLookupList s.storiesHash).length)
    (hlast : i = (storyLookupList s.storiesHash).length - 1)
    (hsid : s.storyId = some ((storyLookupList s.storiesHash).get ⟨i, hi⟩)) :
    jumpToStory s 1 = [] := by
  have hmem : (storyLookupList s.storiesHash).get ⟨i, hi⟩ ∈ storyLookupList s.storiesHash :=
    List.get_mem _ _ _
  have hkeysmem : (storyLookupList s.storiesHash).get ⟨i, hi⟩ ∈ s.storiesHash.map Prod.fst :=
    List.mem_of_mem_filter hmem
  obtain ⟨v, hv, hvmem⟩ := objGet_of_mem_keys s.storiesHash _ hkeysmem
  have htl : truthyLookup s.storiesHash ((storyLookupList s.storiesHash).get ⟨i, hi⟩) = true := by
    rw [truthyLookup, hv]
    simpa using hvals _ hvmem
  have hsne : (storyLookupList s.storiesHash).get ⟨i, hi⟩ ≠ "" := hkeys _ hmem
  have hsne2 : ¬(storyLookupList s.storiesHash)[i] = "" := by simpa using hsne
  have hts : truthyStr s.storyId = true := by rw [hsid]; simp [truthyStr, hsne2]
  have hgd : s.storyId.getD "" = (storyLookupList s.storiesHash).get ⟨i, hi⟩ := by
    rw [hsid]; rfl
  have hidx : jsIndexOf (storyLookupList s.storiesHash)
      ((storyLookupList s.storiesHash).get ⟨i, hi⟩) = ((i : Nat) : Int) := by
    unfold jsIndexOf jsFindIndex
    rw [jsFindIndexAux_self _ hnd i hi 0]
    omega
  simp only [jumpToStory, hts, hgd, htl]
  rw [if_neg (by simp : ¬(true = false ∨ true = false))]
  simp only [hidx]
  rw [if_pos (by omega :
    ((i : Nat) : Int) = ((storyLookupList s.storiesHash).length : Int) - 1 ∧ (1 : Int) > 0)]

/-- Boundary: `jumpToStory(-1)` at the first leaf is a no-op. -/
theorem jumpToStory_noop_first (s : ApiState)
    (hnd : (storyLookupList s.storiesHash).Nodup)
    (hkeys : ∀ k ∈ storyLookupList s.storiesHash, k ≠ "")
    (hvals : ∀ q ∈ s.storiesHash, jsTruthy q.2 = true)
    (hlen : 0 < (storyLookupList s.storiesHash).length)
    (hsid : s.storyId = some ((storyLookupList s.storiesHash).get ⟨0, hlen⟩)) :
    jumpToStory s (-1) = [] := by
  have hmem : (storyLookupList s.storiesHash).get ⟨0, hlen⟩ ∈ storyLookupList s.storiesHash :=
    List.get_mem _ _ _
  have hkeysmem : (storyLookupList s.storiesHash).get ⟨0, hlen⟩ ∈ s.storiesHash.map Prod.fst :=
    List.mem_of_mem_filter hmem
  obtain ⟨v, hv, hvmem⟩ := objGet_of_mem_keys s.storiesHash _ hkeysmem
  have htl : truthyLookup s.storiesHash ((storyLookupList s.storiesHash).get ⟨0, hlen⟩) = true := by
    rw [truthyLookup, hv]
    simpa using hvals _ hvmem
  have hsne : (storyLookupList s.storiesHash).get ⟨0, hlen⟩ ≠ "" := hkeys _ hmem
  have hsne2 : ¬(storyLookupList s.storiesHash)[0] = "" := by simpa using hsne
  have hts : truthyStr s.storyId = true := by rw [hsid]; simp [truthyStr, hsne2]
  have hgd : s.storyId.getD "" = (storyLookupList s.storiesHash).get ⟨0, hlen⟩ := by
    rw [hsid]; rfl
  have hidx : jsIndexOf (storyLookupList s.storiesHash)
      ((storyLookupList s.storiesHash).get ⟨0, hlen⟩) = ((0 : Nat) : Int) := by
    unfold jsIndexOf jsFindIndex
    rw [jsFindIndexAux_self _ hnd 0 hlen 0]
  simp only [jumpToStory, hts, hgd, htl]
  rw [if_neg (by simp : ¬(true = false ∨ true = false))]
  simp only [hidx]
  rw [if_neg (by omega :
    ¬(((0 : Nat) : Int) = ((storyLookupList s.storiesHash).length : Int) - 1 ∧ (-1 : Int) > 0))]
  rw [if_pos (by omega : ((0 : Nat) : Int) = 0 ∧ (-1 : Int) < 0)]

/-- C2: navigation through the leaf lookup list: `jumpToStory` is a no-op
without a current selection or with a selection missing from the mapping;
from the `i`-th leaf of the lookup list (mapping key order),
`jumpToStory(+1)` navigates to the `i+1`-st leaf under the current view
mode, so iterating from the first leaf visits every leaf exactly once in
key order; at the last leaf `jumpToStory(+1)` is a no-op, and at the first
leaf `jumpToStory(-1)` is a no-op. -/
theorem jumpToStory_navigation :
    (∀ (s : ApiState) (d : Int), truthyStr s.storyId = false → jumpToStory s d = [])
  ∧ (∀ (s : ApiState) (d : Int) (sid : String), s.storyId = some sid →
        truthyLookup s.storiesHash sid = false → jumpToStory s d = [])
  ∧ (∀ (s : ApiState) (vm : String) (i : Nat),
        s.viewMode = some vm → vm ≠ "" →
        (storyLookupList s.storiesHash).Nodup →
        (∀ k ∈ storyLookupList s.storiesHash, k ≠ "") →
        (∀ q ∈ s.storiesHash, jsTruthy q.2 = true) →
        ∀ hi : i + 1 < (storyLookupList s.storiesHash).length,
        s.storyId = some ((storyLookupList s.storiesHash).get ⟨i, Nat.lt_of_succ_lt hi⟩) →
        jumpToStory s 1
          = [Effect.nav ("/" ++ vm ++ "/" ++ (storyLookupList s.storiesHash).get ⟨i + 1, hi⟩)])
  ∧ (∀ (s : ApiState) (i : Nat),
        (storyLookupList s.storiesHash).Nodup →
        (∀ k ∈ storyLookupList s.storiesHash, k ≠ "") →
        (∀ q ∈ s.storiesHash, jsTruthy q.2 = true) →
        ∀ hi : i < (storyLookupList s.storiesHash).length,
        i = (storyLookupList s.storiesHash).length - 1 →
        s.storyId = some ((storyLookupList s.storiesHash).get ⟨i, hi⟩) →
        jumpToStory s 1 = [])
  ∧ (∀ (s : ApiState),
        (storyLookupList s.storiesHash).Nodup →
        (∀ k ∈ storyLookupList s.storiesHash, k ≠ "") →
        (∀ q ∈ s.storiesHash, jsTruthy q.2 = true) →
        ∀ hlen : 0 < (storyLookupList s.storiesHash).length,
        s.storyId = some ((storyLookupList s.storiesHash).get ⟨0, hlen⟩) →
        jumpToStory s (-1) = []) :=
  ⟨fun s d h => jumpToStory_noop_unset s d h,
   fun s d sid hs h => jumpToStory_noop_absent s d sid hs h,
   fun s vm i hvm hvm2 hnd hkeys hvals hi hsid =>
     jumpToStory_step s vm i hvm hvm2 hnd hkeys hvals hi hsid,
   fun s i hnd hkeys hvals hi hlast hsid =>
     jumpToStory_noop_last s i hnd hkeys hvals hi hlast hsid,
   fun s hnd hkeys hvals hlen hsid =>
     jumpToStory_noop_first s hnd hkeys hvals hlen hsid⟩

/-- Witness for `jumpToStory_navigation`: in a mapping with leaves
`["l0", "l1"]` and current selection `"l0"`, `jumpToStory(+1)` navigates
to `"l1"`. -/
theorem jumpToStory_navigation_witness :
    jumpToStory twoLeafState 1 = [Effect.nav "/story/l1"] :=
  jumpToStory_navigation.2.2.1 twoLeafState "story" 0 rfl (by decide) (by decide)
    (by decide) (by decide) (by decide) rfl

/-- The operation `setStories` with an absent selection: one navigation to the first
value without truthy children, then the persisting write. -/
theorem setStories_navigates_first_leaf (s : ApiState) (input : List StoryInput)
    (h : StoriesHash) (vm : String) (leaf : JVal)
    (hb : buildStoriesHash input = some h)
    (habs : truthyStr s.storyId = false ∨ truthyLookup h (s.storyId.getD "") = false)
    (hvm : s.viewMode = some vm) (hvm2 : vm ≠ "")
    (hfind : (h.map Prod.snd).find? (fun v => !childrenTruthy v) = some leaf) :
    setStories s input = some ({ s with storiesHash := h },
      [Effect.nav ("/" ++ vm ++ "/" ++ jsToStrOpt (jsGetProp leaf "id")), Effect.set h]) := by
  have hts : truthyStr (some vm) = true := by simp [truthyStr, hvm2]
  unfold setStories
  rw [hb]
  simp only [hfind, hvm]
  rw [if_pos habs]
  simp [hts]

/-- The operation `setStories` with a selection that is a truthy key of the new mapping:
no navigation, only the persisting write. -/
theorem setStories_no_navigation (s : ApiState) (input : List StoryInput)
    (h : StoriesHash) (sid : String)
    (hb : buildStoriesHash input = some h)
    (hs : s.storyId = some sid) (hsne : sid ≠ "")
    (htl : truthyLookup h sid = true) :
    setStories s input = some ({ s with storiesHash := h }, [Effect.set h]) := by
  have hts : truthyStr s.storyId = true := by rw [hs]; simp [truthyStr, hsne]
  have hgd : s.storyId.getD "" = sid := by rw [hs]; rfl
  unfold setStories
  rw [hb]
  simp only [hts, hgd, htl]
  rw [if_neg (by simp : ¬(true = false ∨ true = false))]
  simp

/-- C7: after building the new mapping, if the current selection is unset
or not a truthy key of it and a view mode is set, `setStories` finds the
first Leaf in mapping key order (first value without a truthy `children`
field) and issues exactly one navigation call to it before persisting; if
the selection is a (truthy) key of the new mapping it issues no navigation
call. -/
theorem setStories_first_leaf_navigation :
    (∀ (s : ApiState) (input : List StoryInput) (h : StoriesHash) (vm : String) (leaf : JVal),
        buildStoriesHash input = some h →
        (truthyStr s.storyId = false ∨ truthyLookup h (s.storyId.getD "") = false) →
        s.viewMode = some vm → vm ≠ "" →
        (h.map Prod.snd).find? (fun v => !childrenTruthy v) = some leaf →
        setStories s input = some ({ s with storiesHash := h },
          [Effect.nav ("/" ++ vm ++ "/" ++ jsToStrOpt (jsGetProp leaf "id")), Effect.set h]))
  ∧ (∀ (s : ApiState) (input : List StoryInput) (h : StoriesHash) (sid : String),
        buildStoriesHash input = some h →
        s.storyId = some sid → sid ≠ "" →
        truthyLookup h sid = true →
        setStories s input = some ({ s with storiesHash := h }, [Effect.set h])) :=
  ⟨fun s input h vm leaf hb habs hvm hvm2 hfind =>
      setStories_navigates_first_leaf s input h vm leaf hb habs hvm hvm2 hfind,
   fun s input h sid hb hs hsne htl =>
      setStories_no_navigation s input h sid hb hs hsne htl⟩

/-- Witness for `setStories_first_leaf_navigation`: registering `[recA]`
on the fresh state (no selection) navigates once to the leaf `"s1"` and
persists the built mapping. -/
theorem setStories_first_leaf_navigation_witness :
    setStories freshState [recA] = some ({ freshState with storiesHash := hashA },
      [Effect.nav "/story/s1", Effect.set hashA]) :=
  setStories_first_leaf_navigation.1 freshState [recA] hashA "story" leafS1 rfl
    (Or.inl rfl) rfl (by decide) rfl

/-- The operation `jumpToComponent` with an unset (or blank) selection. -/
theorem jumpToComponent_noop_unset (s : ApiState) (d : Int)
    (h : truthyStr s.storyId = false) : jumpToComponent s d = some [] := by
  simp [jumpToComponent, h]

/-- The operation `jumpToComponent` when the selection is not a truthy key. -/
theorem jumpToComponent_noop_absent (s : ApiState) (d : Int) (sid : String)
    (hs : s.storyId = some sid) (h : truthyLookup s.storiesHash sid = false) :
    jumpToComponent s d = some [] := by
  simp [jumpToComponent, hs, h]

/-- Boundary: `jumpToComponent(+1)` at the last component list is a no-op. -/
theorem jumpToComponent_noop_last (s : ApiState) (sid : String)
    (L : List (List JVal)) (i : Nat)
    (hs : s.storyId = some sid) (hsne : sid ≠ "")
    (htl : truthyLookup s.storiesHash sid = true)
    (hcl : componentLists s.storiesHash = some L)
    (hfi : jsFindIndex L (fun l => l.any (fun j => JVal.beq j (.str sid))) = ((i : Nat) : Int))
    (hil : i < L.length) (hlast : i = L.length - 1) :
    jumpToComponent s 1 = some [] := by
  have hts : truthyStr s.storyId = true := by rw [hs]; simp [truthyStr, hsne]
  have hgd : s.storyId.getD "" = sid := by rw [hs]; rfl
  simp only [jumpToComponent, hts, hgd, htl, hcl, hfi]
  rw [if_neg (by simp : ¬(true = false ∨ true = false))]
  rw [if_pos (by omega : ((i : Nat) : Int) = (L.length : Int) - 1 ∧ (1 : Int) > 0)]

/-- Boundary: `jumpToComponent(-1)` at the first component list is a no-op. -/
theorem jumpToComponent_noop_first (s : ApiState) (sid : String)
    (L : List (List JVal))
    (hs : s.storyId = some sid) (hsne : sid ≠ "")
    (htl : truthyLookup s.storiesHash sid = true)
    (hcl : componentLists s.storiesHash = some L)
    (hfi : jsFindIndex L (fun l => l.any (fun j => JVal.beq j (.str sid))) = ((0 : Nat) : Int)) :
    jumpToComponent s (-1) = some [] := by
  have hts : truthyStr s.storyId = true := by rw [hs]; simp [truthyStr, hsne]
  have hgd : s.storyId.getD "" = sid := by rw [hs]; rfl
  simp only [jumpToComponent, hts, hgd, htl, hcl, hfi]
  rw [if_neg (by simp : ¬(true = false ∨ true = false))]
  rw [if_neg (by omega :
    ¬(((0 : Nat) : Int) = (L.length : Int) - 1 ∧ (-1 : Int) > 0))]
  rw [if_pos (by omega : ((0 : Nat) : Int) = 0 ∧ (-1 : Int) < 0)]

/-- Stepping: `jumpToComponent(+1)` from a non-final component list navigates to the
first child of the next list. -/
theorem jumpToComponent_step_forward (s : ApiState) (sid : String)
    (L : List (List JVal)) (i : Nat)
    (hs : s.storyId = some sid) (hsne : sid ≠ "")
    (htl : truthyLookup s.storiesHash sid = true)
    (hcl : componentLists s.storiesHash = some L)
    (hfi : jsFindIndex L (fun l => l.any (fun j => JVal.beq j (.str sid))) = ((i : Nat) : Int))
    (hnext : i + 1 < L.length) :
    jumpToComponent s 1 = some [Effect.nav ("/"
      ++ (if truthyStr s.viewMode then s.viewMode.getD "" else "story") ++ "/"
      ++ jsToStrOpt (L.get ⟨i + 1, hnext⟩)[0]?)] := by
  have hts : truthyStr s.storyId = true := by rw [hs]; simp [truthyStr, hsne]
  have hgd : s.storyId.getD "" = sid := by rw [hs]; rfl
  have hjs : jsIndex L (((i : Nat) : Int) + 1) = some (L.get ⟨i + 1, hnext⟩) := by
    have hcast : ((i : Nat) : Int) + 1 = (((i + 1 : Nat)) : Int) := by omega
    rw [hcast]
    exact jsIndex_natCast _ _ hnext
  simp only [jumpToComponent, hts, hgd, htl, hcl, hfi]
  rw [if_neg (by simp : ¬(true = false ∨ true = false))]
  rw [if_neg (by omega : ¬(((i : Nat) : Int) = (L.length : Int) - 1 ∧ (1 : Int) > 0))]
  rw [if_neg (by omega : ¬(((i : Nat) : Int) = 0 ∧ (1 : Int) < 0))]
  simp only [hjs]

/-- Stepping: `jumpToComponent(-1)` from a non-initial component list navigates to
the first child of the previous list. -/
theorem jumpToComponent_step_backward (s : ApiState) (sid : String)
    (L : List (List JVal)) (i : Nat)
    (hs : s.storyId = some sid) (hsne : sid ≠ "")
    (htl : truthyLookup s.storiesHash sid = true)
    (hcl : componentLists s.storiesHash = some L)
    (hfi : jsFindIndex L (fun l => l.any (fun j => JVal.beq j (.str sid))) = ((i : Nat) : Int))
    (hpos : 0 < i) (hil : i < L.length) :
    jumpToComponent s (-1) = some [Effect.nav ("/"
      ++ (if truthyStr s.viewMode then s.viewMode.getD "" else "story") ++ "/"
      ++ jsToStrOpt (L.get ⟨i - 1, Nat.lt_of_le_of_lt (Nat.sub_le i 1) hil⟩)[0]?)] := by
  have hts : truthyStr s.storyId = true := by rw [hs]; simp [truthyStr, hsne]
  have hgd : s.storyId.getD "" = sid := by rw [hs]; rfl
  have hjs : jsIndex L (((i : Nat) : Int) + (-1))
      = some (L.get ⟨i - 1, Nat.lt_of_le_of_lt (Nat.sub_le i 1) hil⟩) := by
    have hcast : ((i : Nat) : Int) + (-1) = (((i - 1 : Nat)) : Int) := by omega
    rw [hcast]
    exact jsIndex_natCast _ _ (Nat.lt_of_le_of_lt (Nat.sub_le i 1) hil)
  simp only [jumpToComponent, hts, hgd, htl, hcl, hfi]
  rw [if_neg (by simp : ¬(true = false ∨ true = false))]
  rw [if_neg (by omega : ¬(((i : Nat) : Int) = (L.length : Int) - 1 ∧ (-1 : Int) > 0))]
  rw [if_neg (by omega : ¬(((i : Nat) : Int) = 0 ∧ (-1 : Int) < 0))]
  simp only [hjs]

/-- C8 (counterexample): `jumpToComponent` can raise.  With the selection
`"a"` a key of the mapping but contained in no component child list,
`jumpToComponent(-1)` computes index `-1`, passes both boundary guards,
and reads `[0]` of `lookupList[-2]`, which is `undefined` — a thrown
`TypeError`, modelled as `none`. -/
theorem jumpToComponent_throw_counterexample :
    jumpToComponent groupSelectedState (-1) = none := rfl

/-- C8 (amended): `jumpToComponent` is a silent no-op when the selection
is unset or not a truthy key of the mapping; when the selection occurs in
the component child-lists at index `i`, direction `+1` at the last list
and direction `-1` at the first list are silent no-ops, and otherwise it
navigates to the first child of the list offset by the direction, falling
back to view mode `"story"` when none is set.  However, it is not total:
when the selection is a key of the mapping but occurs in no component
child list, direction `-1` throws (see the counterexample). -/
theorem jumpToComponent_behaviour :
    (∀ (s : ApiState) (d : Int), truthyStr s.storyId = false → jumpToComponent s d = some [])
  ∧ (∀ (s : ApiState) (d : Int) (sid : String), s.storyId = some sid →
        truthyLookup s.storiesHash sid = false → jumpToComponent s d = some [])
  ∧ (∀ (s : ApiState) (sid : String) (L : List (List JVal)) (i : Nat),
        s.storyId = some sid → sid ≠ "" →
        truthyLookup s.storiesHash sid = true →
        componentLists s.storiesHash = some L →
        jsFindIndex L (fun l => l.any (fun j => JVal.beq j (.str sid))) = ((i : Nat) : Int) →
        i < L.length → i = L.length - 1 →
        jumpToComponent s 1 = some [])
  ∧ (∀ (s : ApiState) (sid : String) (L : List (List JVal)),
        s.storyId = some sid → sid ≠ "" →
        truthyLookup s.storiesHash sid = true →
        componentLists s.storiesHash = some L →
        jsFindIndex L (fun l => l.any (fun j => JVal.beq j (.str sid))) = ((0 : Nat) : Int) →
        jumpToComponent s (-1) = some [])
  ∧ (∀ (s : ApiState) (sid : String) (L : List (List JVal)) (i : Nat),
        s.storyId = some sid → sid ≠ "" →
        truthyLookup s.storiesHash sid = true →
        componentLists s.storiesHash = some L →
        jsFindIndex L (fun l => l.any (fun j => JVal.beq j (.str sid))) = ((i : Nat) : Int) →
        ∀ hnext : i + 1 < L.length,
        jumpToComponent s 1 = some [Effect.nav ("/"
          ++ (if truthyStr s.viewMode then s.viewMode.getD "" else "story") ++ "/"
          ++ jsToStrOpt (L.get ⟨i + 1, hnext⟩)[0]?)])
  ∧ (∀ (s : ApiState) (sid : String) (L : List (List JVal)) (i : Nat),
        s.storyId = some sid → sid ≠ "" →
        truthyLookup s.storiesHash sid = true →
        componentLists s.storiesHash = some L →
        jsFindIndex L (fun l => l.any (fun j => JVal.beq j (.str sid))) = ((i : Nat) : Int) →
        0 < i → ∀ hil : i < L.length,
        jumpToComponent s (-1) = some [Effect.nav ("/"
          ++ (if truthyStr s.viewMode then s.viewMode.getD "" else "story") ++ "/"
          ++ jsToStrOpt (L.get ⟨i - 1, Nat.lt_of_le_of_lt (Nat.sub_le i 1) hil⟩)[0]?)]) :=
  ⟨fun s d h => jumpToComponent_noop_unset s d h,
   fun s d sid hs h => jumpToComponent_noop_absent s d sid hs h,
   fun s sid L i hs hsne htl hcl hfi hil hlast =>
     jumpToComponent_noop_last s sid L i hs hsne htl hcl hfi hil hlast,
   fun s sid L hs hsne htl hcl hfi =>
     jumpToComponent_noop_first s sid L hs hsne htl hcl hfi,
   fun s sid L i hs hsne htl hcl hfi hnext =>
     jumpToComponent_step_forward s sid L i hs hsne htl hcl hfi hnext,
   fun s sid L i hs hsne htl hcl hfi hpos hil =>
     jumpToComponent_step_backward s sid L i hs hsne htl hcl hfi hpos hil⟩

/-- Witness for `jumpToComponent_behaviour`: from `"x1"` under component
`comp-a`, `jumpToComponent(+1)` navigates to `"x2"`, the first child of
the next component list. -/
theorem jumpToComponent_behaviour_witness :
    jumpToComponent twoComponentState 1 = some [Effect.nav "/story/x2"] :=
  jumpToComponent_behaviour.2.2.2.2.1 twoComponentState "x1"
    [[.str "x1"], [.str "x2"]] 0 rfl (by decide) rfl rfl rfl (by decide)

end Storybook
